import Mathlib

/- Verification of the process-registry core of mcp-track-it.

The registry (src/process_registry.py) is a SQLite-backed table of process
records.  We embed the table as a `List ProcessRecord` kept in insertion
order (SQLite rowid order).  ISO-8601 timestamp strings produced by
`datetime.now().isoformat()` compare lexicographically in the same order as
the underlying instants, so timestamps are modelled as `Int` values and the
SQL comparisons on them as integer comparisons.  Each operation that reads
the clock takes the current instant `now` as an explicit argument. -/

namespace TrackIt

/-- One row of the `processes` table, with the columns of the fully
upgraded schema.  Nullable columns are `Option`; `has_separate_streams`
is stored as SQLite 0/1 and modelled as `Bool`. -/
structure ProcessRecord where
  process_id : String
  command : String
  pid : Option Int
  status : String
  log_file : String
  working_dir : Option String
  started_at : Int
  completed_at : Option Int
  exit_code : Option Int
  stdout_log : Option String
  stderr_log : Option String
  has_separate_streams : Bool
deriving Repr, DecidableEq

/-- Errors surfaced by the storage layer.  `sqliteIntegrityError` is the raw
`sqlite3.IntegrityError` a PRIMARY KEY violation raises; the code contains
no translation layer, so it propagates to the caller as-is.  `duplicateKey`
is the typed error of the spec's error taxonomy; it is declared here only so
that statements can compare what the code raises against what the spec
names, and the code embedding never constructs it. -/
inductive RegistryError where
  | sqliteIntegrityError : RegistryError
  | duplicateKey : RegistryError
deriving Repr, DecidableEq

/-- Embedding of `ProcessRegistry.register_process`.  The INSERT hits the
PRIMARY KEY constraint exactly when a row with the same `process_id` already
exists, in which case sqlite raises `IntegrityError`; otherwise one row is
appended with `status="running"`, `started_at=now`, null `completed_at` and
`exit_code`, and `has_separate_streams` computed from the stream logs. -/
def register_process (s : List ProcessRecord) (process_id : String) (command : String)
    (pid : Option Int) (log_file : String) (working_dir : Option String)
    (stdout_log : Option String) (stderr_log : Option String) (now : Int) :
    Except RegistryError (List ProcessRecord) :=
  if s.any fun r => r.process_id == process_id then
    Except.error RegistryError.sqliteIntegrityError
  else
    let row : ProcessRecord :=
      { process_id := process_id, command := command, pid := pid,
        status := "running", log_file := log_file, working_dir := working_dir,
        started_at := now, completed_at := none, exit_code := none,
        stdout_log := stdout_log, stderr_log := stderr_log,
        has_separate_streams := stdout_log.isSome || stderr_log.isSome }
    Except.ok (s ++ [row])

/-- Embedding of `ProcessRegistry.update_process_status`.  The code branches
on whether the new status is terminal: the terminal UPDATE sets
`status`, `exit_code` and `completed_at` for the matching row, the other
UPDATE sets only `status`.  An UPDATE whose WHERE clause matches no row is a
silent no-op (the code never inspects the row count and never raises). -/
def update_process_status (s : List ProcessRecord) (process_id : String)
    (status : String) (exit_code : Option Int) (now : Int) : List ProcessRecord :=
  if status == "completed" || status == "failed" then
    s.map fun r =>
      if r.process_id == process_id then
        { r with status := status, exit_code := exit_code, completed_at := some now }
      else r
  else
    s.map fun r =>
      if r.process_id == process_id then { r with status := status } else r

/-- Embedding of `ProcessRegistry.get_process`: SELECT by primary key,
`fetchone`. -/
def get_process (s : List ProcessRecord) (process_id : String) : Option ProcessRecord :=
  s.find? fun r => r.process_id == process_id

/-- Comparator of the `ORDER BY started_at DESC` clause. -/
def startedDesc (a b : ProcessRecord) : Bool :=
  decide (b.started_at ≤ a.started_at)

/-- Embedding of `ProcessRegistry.list_processes`.  Python's `if status:`
skips the status filter for `None` and for the empty string; the
`with_separate_streams` filter is guarded by `is not None` and so applies
for both booleans; `if limit:` skips the LIMIT clause when `limit` is
`None` or `0`, and SQLite treats a negative LIMIT as unlimited. -/
def list_processes (s : List ProcessRecord) (status : Option String)
    (limit : Option Int) (with_separate_streams : Option Bool) : List ProcessRecord :=
  let afterStatus : List ProcessRecord := match status with
    | some st => if st == "" then s else s.filter fun r => r.status == st
    | none => s
  let afterStreams : List ProcessRecord := match with_separate_streams with
    | some b => afterStatus.filter fun r => r.has_separate_streams == b
    | none => afterStatus
  let sorted := afterStreams.mergeSort startedDesc
  match limit with
  | some n => if n == 0 then sorted else if n < 0 then sorted else sorted.take n.toNat
  | none => sorted

/-- Embedding of `ProcessRegistry.delete_process`: DELETE by primary key,
returning whether any row was removed (`cursor.rowcount > 0`). -/
def delete_process (s : List ProcessRecord) (process_id : String) :
    Bool × List ProcessRecord :=
  let remaining := s.filter fun r => !(r.process_id == process_id)
  (decide (remaining.length < s.length), remaining)

/-- Row predicate of the retention DELETE: terminal status and
`completed_at < cutoff`.  In SQL a NULL `completed_at` makes the comparison
NULL, so such a row is not deleted. -/
def cleanup_cond (cutoff : Int) (r : ProcessRecord) : Bool :=
  (r.status == "completed" || r.status == "failed") &&
    match r.completed_at with
    | some t => decide (t < cutoff)
    | none => false

/-- Embedding of `ProcessRegistry.cleanup_old_processes`: computes
`cutoff = now - days*86400` and deletes every row matching
`cleanup_cond`, returning the deleted count (`cursor.rowcount`) and the
remaining table. -/
def cleanup_old_processes (s : List ProcessRecord) (days : Int) (now : Int) :
    Nat × List ProcessRecord :=
  let cutoff := now - days * 86400
  ((s.filter fun r => cleanup_cond cutoff r).length,
    s.filter fun r => !(cleanup_cond cutoff r))

/-- POSIX absoluteness test of `pathlib.Path.is_absolute`: the path starts
with a slash. -/
def isAbsolutePath (p : String) : Bool :=
  match p.data with
  | [] => false
  | c :: _ => c == '/'

/-- Character-level split of a path on the slash separator. -/
def splitSlash : List Char → List Char → List (List Char)
  | cur, [] => [cur.reverse]
  | cur, c :: cs => if c == '/' then cur.reverse :: splitSlash [] cs
      else splitSlash (c :: cur) cs

/-- Segment normalization performed by `Path.resolve` on an absolute path:
empty segments (duplicate separators) and single dots vanish, a double dot
removes the previous segment (and is a no-op at the root).  Symlink
resolution is filesystem state and is not modelled; this is `resolve` on a
symlink-free tree. -/
def normSegs (segs : List (List Char)) : List (List Char) :=
  segs.foldl
    (fun acc seg =>
      if seg.isEmpty || seg == ['.'] then acc
      else if seg == ['.', '.'] then acc.dropLast
      else acc ++ [seg])
    []

/-- Join segments with single slashes. -/
def intercalateSlash : List (List Char) → List Char
  | [] => []
  | [seg] => seg
  | seg :: rest => seg ++ '/' :: intercalateSlash rest

/-- Reassemble normalized segments into an absolute path string: the root
when no segment remains, a leading slash before the joined segments
otherwise. -/
def joinAbs : List (List Char) → List Char
  | [] => ['/']
  | segs => '/' :: intercalateSlash segs

/-- Embedding of `Path.resolve()` (symlink-free): a relative path is first
made absolute against the current working directory `cwd`, then dot and
double-dot segments and duplicate separators are eliminated. -/
def pyResolve (cwd : String) (p : String) : String :=
  let full := if isAbsolutePath p then p else cwd ++ "/" ++ p
  String.mk (joinAbs (normSegs (splitSlash [] full.data)))

/-- Number of leading slashes of a path, which determines the POSIX root
`pathlib` keeps: exactly two give the special `//` root, any other positive
count collapses to `/`. -/
def countLeadingSlashes : List Char → Nat
  | [] => 0
  | c :: cs => if c == '/' then countLeadingSlashes cs + 1 else 0

/-- Embedding of `str(pathlib.Path(p))` on POSIX: duplicate separators,
single-dot segments and any trailing slash are dropped (cosmetic
normalization only — `..` segments are kept), the root is preserved (with
the POSIX special case that exactly two leading slashes stay `//`), and a
path with nothing left renders as `.`. -/
def pyPathStr (p : String) : String :=
  let nslash := countLeadingSlashes p.data
  let segs := (splitSlash [] p.data).filter fun seg => !(seg.isEmpty || seg == ['.'])
  let root : List Char := if nslash == 2 then ['/', '/']
    else if nslash == 0 then [] else ['/']
  if root.isEmpty && segs.isEmpty then String.mk ['.']
  else String.mk (root ++ intercalateSlash segs)

/-- Embedding of `resolve_log_path` in `src/mcp_server.py`.  Python's
`if not log_path:` treats both `None` and the empty string as absence; an
absolute stored path is returned as `str(Path(p))`, i.e. with `pathlib`'s
cosmetic normalization applied (`pyPathStr`), independent of
`working_dir`; a relative path is joined to `working_dir` when that is
truthy and resolved, and otherwise resolved against the process's own
working directory as the documented fallback. -/
def resolve_log_path (log_path : Option String) (working_dir : Option String)
    (cwd : String) : Option String :=
  match log_path with
  | none => none
  | some p =>
    if p == "" then none
    else if isAbsolutePath p then some (pyPathStr p)
    else
      match working_dir with
      | some wd => if wd == "" then some (pyResolve cwd p)
          else some (pyResolve cwd (wd ++ "/" ++ p))
      | none => some (pyResolve cwd p)

/-- The `logs` object built by `format_process` in `src/mcp_server.py`:
the combined log is always resolved; the `stdout`/`stderr` keys are added
only when the corresponding stored path is truthy. -/
structure FormattedLogs where
  combined : Option String
  stdoutPath : Option String
  stderrPath : Option String
deriving Repr, DecidableEq

/-- Embedding of the log-path part of `format_process`. -/
def format_process_logs (r : ProcessRecord) (cwd : String) : FormattedLogs :=
  { combined := resolve_log_path (some r.log_file) r.working_dir cwd
    stdoutPath := match r.stdout_log with
      | some sl => if sl == "" then none else resolve_log_path (some sl) r.working_dir cwd
      | none => none
    stderrPath := match r.stderr_log with
      | some sl => if sl == "" then none else resolve_log_path (some sl) r.working_dir cwd
      | none => none }

/-- Schema-level state of the database file: whether the `processes` table
exists, which of the three later-added columns it has, and its rows. -/
structure DbState where
  tableExists : Bool
  hasStdoutCol : Bool
  hasStderrCol : Bool
  hasStreamsCol : Bool
  rows : List ProcessRecord
deriving Repr, DecidableEq

/-- CREATE TABLE IF NOT EXISTS: a fresh table has only the original columns
and no rows; an existing table is untouched. -/
def createTableStep (db : DbState) : DbState :=
  if db.tableExists then db
  else
    { tableExists := true, hasStdoutCol := false, hasStderrCol := false,
      hasStreamsCol := false, rows := [] }

/-- ALTER TABLE ADD COLUMN stdout_log TEXT, guarded by the PRAGMA
column-existence check; existing rows get NULL. -/
def stdoutColStep (db : DbState) : DbState :=
  if db.hasStdoutCol then db
  else
    { db with
      hasStdoutCol := true,
      rows := db.rows.map fun r => { r with stdout_log := none } }

/-- ALTER TABLE ADD COLUMN stderr_log TEXT, guarded as above. -/
def stderrColStep (db : DbState) : DbState :=
  if db.hasStderrCol then db
  else
    { db with
      hasStderrCol := true,
      rows := db.rows.map fun r => { r with stderr_log := none } }

/-- ALTER TABLE ADD COLUMN has_separate_streams BOOLEAN DEFAULT 0, guarded
as above; existing rows get the default 0. -/
def streamsColStep (db : DbState) : DbState :=
  if db.hasStreamsCol then db
  else
    { db with
      hasStreamsCol := true,
      rows := db.rows.map fun r => { r with has_separate_streams := false } }

/-- Embedding of `ProcessRegistry._init_database`: create the table if
absent, then add each missing column.  Index creation has no effect on the
data model and is not represented. -/
def init_database (db : DbState) : DbState :=
  streamsColStep (stderrColStep (stdoutColStep (createTableStep db)))

/-- Store states reachable from an empty table by the registry's mutating
operations (register, status update, delete, retention cleanup). -/
inductive Reachable : List ProcessRecord → Prop where
  | init : Reachable []
  | register {s s' : List ProcessRecord} {pid : String} {cmd : String}
      {osPid : Option Int} {lf : String} {wd so se : Option String} {now : Int} :
      Reachable s →
      register_process s pid cmd osPid lf wd so se now = Except.ok s' →
      Reachable s'
  | update {s : List ProcessRecord} {pid st : String} {ec : Option Int} {now : Int} :
      Reachable s → Reachable (update_process_status s pid st ec now)
  | delete {s : List ProcessRecord} {pid : String} :
      Reachable s → Reachable (delete_process s pid).2
  | cleanup {s : List ProcessRecord} {days now : Int} :
      Reachable s → Reachable (cleanup_old_processes s days now).2

/-- A freshly registered record, as produced by
`register_process [] "p" "cmd" none "out.log" (some "/home/x") none none 5`. -/
def sampleRecord : ProcessRecord :=
  { process_id := "p", command := "cmd", pid := none, status := "running",
    log_file := "out.log", working_dir := some "/home/x", started_at := 5,
    completed_at := none, exit_code := none, stdout_log := none,
    stderr_log := none, has_separate_streams := false }

/-- Row-level effect of the UPDATE statements: the terminal branch rewrites
`status`, `exit_code` and `completed_at`, the other branch rewrites only
`status`. -/
def update_transform (status : String) (exit_code : Option Int) (now : Int)
    (r : ProcessRecord) : ProcessRecord :=
  if status == "completed" || status == "failed" then
    { r with status := status, exit_code := exit_code, completed_at := some now }
  else
    { r with status := status }

lemma update_eq_map (s : List ProcessRecord) (pid status : String) (ec : Option Int)
    (now : Int) :
    update_process_status s pid status ec now =
      s.map fun r => if r.process_id == pid then update_transform status ec now r else r := by
  unfold update_process_status update_transform
  split <;> simp_all

lemma process_id_update_transform (status : String) (ec : Option Int) (now : Int)
    (r : ProcessRecord) : (update_transform status ec now r).process_id = r.process_id := by
  unfold update_transform
  split <;> rfl

lemma get_process_update (s : List ProcessRecord) (pid status : String) (ec : Option Int)
    (now : Int) :
    get_process (update_process_status s pid status ec now) pid =
      (get_process s pid).map (update_transform status ec now) := by
  rw [update_eq_map]
  induction s with
  | nil => simp [get_process]
  | cons a t ih =>
      by_cases ha : a.process_id == pid
      · simp [get_process, List.find?, ha, process_id_update_transform]
      · simp only [Bool.not_eq_true] at ha
        simp only [get_process, List.find?] at ih ⊢
        simp only [List.map_cons, ha, if_false, Bool.false_eq_true]
        exact ih

/-- C1 counterexample: after `update_status("p", "completed", 0)` the record
is terminal, yet a further `update_status("p", "running")` is neither
rejected nor ignored — `get` then reports `status="running"`, so the status
does transition out of a terminal status. -/
theorem c1_terminal_regression_cex :
    (get_process (update_process_status [sampleRecord] "p" "completed" (some 0) 6) "p").map
        (fun r => r.status) = some "completed" ∧
    (get_process (update_process_status (update_process_status [sampleRecord] "p" "completed"
        (some 0) 6) "p" "running" none 7) "p").map (fun r => r.status) = some "running" := by
  decide

/-- C1 amended: after `update_status(id, "completed", c)` on an existing
record, `get(id)` returns `status=completed`, `exit_code=c` and a non-null
`completed_at`; but a subsequent `update_status(id, "running")` call is
applied unconditionally rather than rejected or ignored, and `get(id)` then
returns `status=running` (with the stale `completed_at`/`exit_code` still
set). -/
theorem c1_terminal_update_then_regression (s : List ProcessRecord) (pid : String)
    (r : ProcessRecord) (c : Int) (t t2 : Int) (h : get_process s pid = some r) :
    get_process (update_process_status s pid "completed" (some c) t) pid =
      some { r with status := "completed", exit_code := some c, completed_at := some t } ∧
    get_process (update_process_status (update_process_status s pid "completed" (some c) t)
        pid "running" none t2) pid =
      some { r with status := "running", exit_code := some c, completed_at := some t } := by
  rw [get_process_update, get_process_update, get_process_update, h]
  simp [update_transform]

/-- C1 witness: the amended statement evaluated on a one-record store. -/
theorem c1_terminal_update_then_regression_w :
    get_process [sampleRecord] "p" = some sampleRecord ∧
    get_process (update_process_status [sampleRecord] "p" "completed" (some 0) 6) "p" =
      some { sampleRecord with
        status := "completed", exit_code := some 0, completed_at := some 6 } ∧
    get_process (update_process_status (update_process_status [sampleRecord] "p" "completed"
        (some 0) 6) "p" "running" none 7) "p" =
      some { sampleRecord with
        status := "running", exit_code := some 0, completed_at := some 6 } :=
  ⟨rfl, (c1_terminal_update_then_regression [sampleRecord] "p" sampleRecord 0 6 7 rfl).1,
    (c1_terminal_update_then_regression [sampleRecord] "p" sampleRecord 0 6 7 rfl).2⟩

/-- C3 counterexample: `update_status` on an id absent from a non-empty
store completes normally and leaves the store unchanged — no `NotFound`
error is reported (the embedded operation is total because the Python code
never inspects the UPDATE row count and never raises). -/
theorem c3_absent_id_silent_cex :
    update_process_status [sampleRecord] "ghost" "completed" (some 0) 9 = [sampleRecord] := by
  decide

/-- C3 amended: for every id absent from the store, `update_status` is a
silent no-op: the store state is unchanged and no error of any kind is
reported to the caller. -/
theorem c3_absent_id_noop (s : List ProcessRecord) (pid status : String)
    (ec : Option Int) (now : Int) (h : ∀ r ∈ s, r.process_id ≠ pid) :
    update_process_status s pid status ec now = s := by
  rw [update_eq_map]
  conv_rhs => rw [← List.map_id s]
  refine List.map_congr_left fun r hr => ?_
  simp [beq_eq_false_iff_ne.mpr (h r hr)]

/-- C3 witness: the amended no-op statement on a concrete store and id. -/
theorem c3_absent_id_noop_w :
    (∀ r ∈ [sampleRecord], r.process_id ≠ "q") ∧
    update_process_status [sampleRecord] "q" "failed" (some 1) 9 = [sampleRecord] :=
  ⟨by decide, c3_absent_id_noop [sampleRecord] "q" "failed" (some 1) 9 (by decide)⟩

/-- C4 counterexample: registering an already-used `process_id` fails with
the raw storage-engine error (`sqlite3.IntegrityError`), not with the typed
`DuplicateKey` error of the spec's taxonomy — there is no translation layer
in the code, so the raw error leaks to the caller. -/
theorem c4_raw_error_leaks_cex :
    register_process [sampleRecord] "p" "other" none "b.log" none none none 9 =
      Except.error RegistryError.sqliteIntegrityError ∧
    ¬ (register_process [sampleRecord] "p" "other" none "b.log" none none none 9 =
      Except.error RegistryError.duplicateKey) := by
  refine ⟨rfl, fun h => ?_⟩
  rw [(rfl : register_process [sampleRecord] "p" "other" none "b.log" none none none 9 =
    Except.error RegistryError.sqliteIntegrityError)] at h
  injection h with h2
  exact RegistryError.noConfusion h2

/-- C4 amended: `register` with a reused `process_id` always fails — the
PRIMARY KEY violation surfaces as the raw `sqlite3.IntegrityError` rather
than a typed `DuplicateKey` — and, the insert having failed, the store (in
particular the original record) is unchanged. -/
theorem c4_duplicate_register_fails (s : List ProcessRecord) (pid cmd : String)
    (osPid : Option Int) (lf : String) (wd so se : Option String) (now : Int)
    (h : ∃ r ∈ s, r.process_id = pid) :
    register_process s pid cmd osPid lf wd so se now =
      Except.error RegistryError.sqliteIntegrityError := by
  obtain ⟨r, hr, hid⟩ := h
  unfold register_process
  rw [if_pos]
  exact List.any_eq_true.mpr ⟨r, hr, beq_iff_eq.mpr hid⟩

/-- C4 witness: the amended statement on a concrete duplicate
registration. -/
theorem c4_duplicate_register_fails_w :
    (∃ r ∈ [sampleRecord], r.process_id = "p") ∧
    register_process [sampleRecord] "p" "other" none "c.log" none none none 11 =
      Except.error RegistryError.sqliteIntegrityError :=
  ⟨by decide, c4_duplicate_register_fails [sampleRecord] "p" "other" none "c.log"
    none none none 11 (by decide)⟩

/-- C2 counterexample: the store in which the only record was registered,
completed, and then updated back to `running` is reachable, and its record
has `status=running` with non-null `completed_at` and `exit_code` — the
nulls-iff-running biconditional fails in a reachable state. -/
theorem c2_null_iff_running_cex :
    ¬ (∀ s, Reachable s → ∀ r ∈ s,
        ((r.completed_at = none ∧ r.exit_code = none) ↔ r.status = "running")) := by
  intro h
  have hx : register_process [] "p" "cmd" none "out.log" (some "/home/x") none none 5 =
      Except.ok [sampleRecord] := rfl
  have h1 : Reachable [sampleRecord] := Reachable.register Reachable.init hx
  have h2 : Reachable (update_process_status [sampleRecord] "p" "completed" (some 0) 6) :=
    Reachable.update h1
  have h3 : Reachable (update_process_status (update_process_status [sampleRecord] "p"
      "completed" (some 0) 6) "p" "running" none 7) := Reachable.update h2
  have hmem : ({ sampleRecord with
      status := "running", exit_code := some 0, completed_at := some 6 } : ProcessRecord) ∈
      update_process_status (update_process_status [sampleRecord] "p" "completed" (some 0) 6)
        "p" "running" none 7 := by decide
  have hiff := (h _ h3 _ hmem).mpr rfl
  exact absurd hiff.1 (by decide)

/-- C2 amended: the direction of the invariant that every operation does
preserve — in every reachable store state, a record with a non-null
`exit_code` has a non-null `completed_at` (a non-null exit code can only be
stored by a terminal update, which also stamps `completed_at`).  The full
biconditional fails because a terminal update may store a null exit code
and an update back to `running` clears neither field. -/
theorem c2_exit_code_needs_completed (s : List ProcessRecord) (hs : Reachable s) :
    ∀ r ∈ s, r.exit_code ≠ none → r.completed_at ≠ none := by
  induction hs with
  | init => simp
  | register hprev hreg ih =>
      unfold register_process at hreg
      split at hreg
      · simp at hreg
      · simp only [Except.ok.injEq] at hreg
        subst hreg
        intro r hr
        rcases List.mem_append.mp hr with hl | hr2
        · exact ih r hl
        · rw [List.mem_singleton] at hr2
          subst hr2
          intro hne
          exact absurd rfl hne
  | update hprev ih =>
      rename_i sp pid st ec now
      rw [update_eq_map]
      intro r hr
      rcases List.mem_map.mp hr with ⟨r0, hr0, rfl⟩
      by_cases hid : (r0.process_id == pid) = true
      · simp only [hid, if_true]
        unfold update_transform
        split
        · intro hne
          simp
        · intro hne
          exact ih r0 hr0 hne
      · simp only [Bool.not_eq_true] at hid
        simp only [hid, Bool.false_eq_true, if_false]
        exact ih r0 hr0
  | delete hprev ih =>
      intro r hr
      simp only [delete_process] at hr
      exact ih r (List.mem_of_mem_filter hr)
  | cleanup hprev ih =>
      intro r hr
      simp only [cleanup_old_processes] at hr
      exact ih r (List.mem_of_mem_filter hr)

/-- C2 witness: the amended invariant evaluated on the reachable store
holding one completed record. -/
theorem c2_exit_code_needs_completed_w :
    Reachable (update_process_status [sampleRecord] "p" "completed" (some 0) 6) ∧
    ({ sampleRecord with
      status := "completed", exit_code := some 0, completed_at := some 6 } :
        ProcessRecord).completed_at ≠ none := by
  have hx : register_process [] "p" "cmd" none "out.log" (some "/home/x") none none 5 =
      Except.ok [sampleRecord] := rfl
  have h2 : Reachable (update_process_status [sampleRecord] "p" "completed" (some 0) 6) :=
    Reachable.update (Reachable.register Reachable.init hx)
  exact ⟨h2, c2_exit_code_needs_completed _ h2 _ (by decide) (by decide)⟩

/-- C5 counterexample: Python's `if limit:` treats `limit=0` as "no limit",
so on a one-record store `list(limit=0)` returns one record, not at most
zero. -/
theorem c5_limit_zero_cex :
    ¬ ((list_processes [sampleRecord] none (some 0) none).length ≤ 0) := by
  simp [list_processes, List.mergeSort_singleton]

lemma startedDesc_trans : ∀ a b c : ProcessRecord,
    startedDesc a b = true → startedDesc b c = true → startedDesc a c = true := by
  intro a b c
  simp only [startedDesc, decide_eq_true_eq]
  omega

lemma startedDesc_total : ∀ a b : ProcessRecord,
    (startedDesc a b || startedDesc b a) = true := by
  intro a b
  simp only [startedDesc, Bool.or_eq_true, decide_eq_true_eq]
  omega

/-- C5 amended: for every positive N, `list(limit=N)` returns at most N
records and is ordered by `started_at` descending; `list()` with no filter
and no limit is also so ordered and returns every existing record exactly
once (it is a permutation of the store).  The claim's "every non-negative
N" fails only at N = 0, which the code treats as "no limit". -/
theorem c5_list_limit_order (s : List ProcessRecord) (n : Int) (hn : 0 < n) :
    (list_processes s none (some n) none).length ≤ n.toNat ∧
    List.Pairwise (fun a b => b.started_at ≤ a.started_at)
      (list_processes s none (some n) none) ∧
    List.Pairwise (fun a b => b.started_at ≤ a.started_at)
      (list_processes s none none none) ∧
    (list_processes s none none none).Perm s := by
  have h0 : (n == 0) = false := beq_eq_false_iff_ne.mpr (by omega)
  have h1 : ¬ (n < 0) := by omega
  have hsorted : List.Pairwise (fun a b => b.started_at ≤ a.started_at)
      (s.mergeSort startedDesc) := by
    refine List.Pairwise.imp ?_
      (List.sorted_mergeSort startedDesc_trans startedDesc_total s)
    intro a b hab
    simpa [startedDesc] using hab
  refine ⟨?_, ?_, ?_, ?_⟩
  · simp only [list_processes, h0, Bool.false_eq_true, if_false, if_neg h1]
    simp [List.length_take]
  · simp only [list_processes, h0, Bool.false_eq_true, if_false, if_neg h1]
    exact hsorted.sublist (List.take_sublist _ _)
  · simpa only [list_processes] using hsorted
  · simpa only [list_processes] using List.mergeSort_perm s startedDesc

/-- C5 witness: the amended statement evaluated at N = 1 on a one-record
store. -/
theorem c5_list_limit_order_w :
    (0 : Int) < 1 ∧
    ((list_processes [sampleRecord] none (some 1) none).length ≤ (1 : Int).toNat ∧
    List.Pairwise (fun a b => b.started_at ≤ a.started_at)
      (list_processes [sampleRecord] none (some 1) none) ∧
    List.Pairwise (fun a b => b.started_at ≤ a.started_at)
      (list_processes [sampleRecord] none none none) ∧
    (list_processes [sampleRecord] none none none).Perm [sampleRecord]) :=
  ⟨by decide, c5_list_limit_order [sampleRecord] 1 (by decide)⟩

lemma length_filter_pos_add_neg (p : ProcessRecord → Bool) (l : List ProcessRecord) :
    (l.filter p).length + (l.filter fun x => !(p x)).length = l.length := by
  induction l with
  | nil => simp
  | cons a t ih =>
      by_cases hp : p a = true
      · simp [List.filter, hp, ih]
        omega
      · simp only [Bool.not_eq_true] at hp
        simp [List.filter, hp, ih]
        omega

/-- C6: `cleanup_older_than` keeps a record iff it is not (terminal with
`completed_at` older than `now - days*86400`); a `running` record is never
deleted whatever its `started_at`; and the returned count plus the number
of surviving records equals the original store size, i.e. the count is the
number of records removed. -/
theorem c6_cleanup_exact (s : List ProcessRecord) (days now : Int) (r : ProcessRecord)
    (hr : r ∈ s) :
    (r ∈ (cleanup_old_processes s days now).2 ↔
      ¬ ((r.status = "completed" ∨ r.status = "failed") ∧
        ∃ t, r.completed_at = some t ∧ t < now - days * 86400)) ∧
    (r.status = "running" → r ∈ (cleanup_old_processes s days now).2) ∧
    (cleanup_old_processes s days now).1 + ((cleanup_old_processes s days now).2).length =
      s.length := by
  have hcond : ∀ x : ProcessRecord, cleanup_cond (now - days * 86400) x = true ↔
      ((x.status = "completed" ∨ x.status = "failed") ∧
        ∃ t, x.completed_at = some t ∧ t < now - days * 86400) := by
    intro x
    simp only [cleanup_cond, Bool.and_eq_true, Bool.or_eq_true, beq_iff_eq]
    cases hx : x.completed_at <;> simp [hx]
  refine ⟨?_, ?_, ?_⟩
  · simp only [cleanup_old_processes, List.mem_filter, hr, true_and, Bool.not_eq_true]
    rw [← hcond r]
    cases h : cleanup_cond (now - days * 86400) r <;> simp [h]
  · intro hrun
    simp only [cleanup_old_processes, List.mem_filter]
    refine ⟨hr, ?_⟩
    simp only [Bool.not_eq_true']
    cases h : cleanup_cond (now - days * 86400) r
    · rfl
    · exfalso
      rcases (hcond r).mp h with ⟨hst | hst, _⟩ <;> rw [hrun] at hst <;> simp at hst
  · simpa only [cleanup_old_processes] using
      length_filter_pos_add_neg (fun x => cleanup_cond (now - days * 86400) x) s

/-- A completed record used in concrete witnesses. -/
def sampleDone : ProcessRecord :=
  { sampleRecord with status := "completed", exit_code := some 0, completed_at := some 6 }

/-- C6 witness: the cleanup characterization evaluated on a store holding
one completed record, with a cutoff that removes it. -/
theorem c6_cleanup_exact_w :
    (sampleDone ∈ [sampleDone]) ∧
    ((sampleDone ∈ (cleanup_old_processes [sampleDone] 0 10).2 ↔
      ¬ ((sampleDone.status = "completed" ∨ sampleDone.status = "failed") ∧
        ∃ t, sampleDone.completed_at = some t ∧ t < 10 - 0 * 86400)) ∧
    (sampleDone.status = "running" → sampleDone ∈ (cleanup_old_processes [sampleDone] 0 10).2) ∧
    (cleanup_old_processes [sampleDone] 0 10).1 +
      ((cleanup_old_processes [sampleDone] 0 10).2).length =
      ([sampleDone] : List ProcessRecord).length) :=
  ⟨by decide, c6_cleanup_exact [sampleDone] 0 10 sampleDone (by decide)⟩

lemma isAbsolutePath_mk_joinAbs (segs : List (List Char)) :
    isAbsolutePath (String.mk (joinAbs segs)) = true := by
  cases segs with
  | nil => rfl
  | cons a t => rfl

lemma isAbsolutePath_pyResolve (cwd p : String) :
    isAbsolutePath (pyResolve cwd p) = true :=
  isAbsolutePath_mk_joinAbs _

lemma isAbsolutePath_beq_empty_false {p : String} (habs : isAbsolutePath p = true) :
    (p == "") = false := by
  rcases hd : p.data with _ | ⟨c, cs⟩
  · simp [isAbsolutePath, hd] at habs
  · refine beq_eq_false_iff_ne.mpr fun h => ?_
    subst h
    exact List.noConfusion hd

/-- C7 counterexample: the stored absolute path `/a//b` is not returned
unchanged — the code returns `str(Path(log_path))`, and `pathlib` collapses
the duplicate separator, so the resolver yields `/a/b`. -/
theorem c7_absolute_not_unchanged_cex :
    resolve_log_path (some "/a//b") (some "/home/x") "/cwd" = some "/a/b" ∧
    ¬ (resolve_log_path (some "/a//b") (some "/home/x") "/cwd" = some "/a//b") := by
  decide

/-- C7 amended: an absolute stored log path is returned with only
`pathlib`'s cosmetic normalization applied (`str(Path(p))`: duplicate
slashes, single-dot segments and any trailing slash dropped), independent
of `working_dir`; in particular a path already in normal form is returned
unchanged.  A relative path with a known (truthy) `working_dir` is resolved
against `working_dir` into absolute form (concretely, `out.log` under
`/home/x` gives `/home/x/out.log`, and `../out.log` under `/home/x/sub`
canonicalizes to `/home/x/out.log`); an absent path yields absence; and
`format_process` applies this independently to the stream logs, an absent
stream log giving an absent output entry, never an error. -/
theorem c7_resolve_paths :
    (∀ p wd cwd, isAbsolutePath p = true →
      resolve_log_path (some p) wd cwd = some (pyPathStr p)) ∧
    (∀ p wd cwd, isAbsolutePath p = true → pyPathStr p = p →
      resolve_log_path (some p) wd cwd = some p) ∧
    (∀ p wd cwd, p ≠ "" → isAbsolutePath p = false → wd ≠ "" →
      resolve_log_path (some p) (some wd) cwd = some (pyResolve cwd (wd ++ "/" ++ p)) ∧
      isAbsolutePath (pyResolve cwd (wd ++ "/" ++ p)) = true) ∧
    (∀ cwd, resolve_log_path (some "out.log") (some "/home/x") cwd =
      some "/home/x/out.log") ∧
    (∀ cwd, resolve_log_path (some "../out.log") (some "/home/x/sub") cwd =
      some "/home/x/out.log") ∧
    (∀ wd cwd, resolve_log_path none wd cwd = none) ∧
    (∀ r cwd, r.stdout_log = none → (format_process_logs r cwd).stdoutPath = none) ∧
    (∀ r cwd, r.stderr_log = none → (format_process_logs r cwd).stderrPath = none) := by
  refine ⟨?_, ?_, ?_, ?_, ?_, ?_, ?_, ?_⟩
  · intro p wd cwd habs
    simp [resolve_log_path, isAbsolutePath_beq_empty_false habs, habs]
  · intro p wd cwd habs hnorm
    simp [resolve_log_path, isAbsolutePath_beq_empty_false habs, habs, hnorm]
  · intro p wd cwd hp habs hwd
    have hne : (p == "") = false := beq_eq_false_iff_ne.mpr hp
    have hwdne : (wd == "") = false := beq_eq_false_iff_ne.mpr hwd
    exact ⟨by simp [resolve_log_path, hne, habs, hwdne],
      isAbsolutePath_pyResolve cwd (wd ++ "/" ++ p)⟩
  · intro cwd
    simp [resolve_log_path, isAbsolutePath, pyResolve, splitSlash, normSegs, joinAbs,
      intercalateSlash]
  · intro cwd
    simp [resolve_log_path, isAbsolutePath, pyResolve, splitSlash, normSegs, joinAbs,
      intercalateSlash]
  · intro wd cwd
    rfl
  · intro r cwd h
    simp [format_process_logs, h]
  · intro r cwd h
    simp [format_process_logs, h]

/-- C7 witness: the resolver conjuncts evaluated on concrete paths — the
normalizing branch on `/a//b`, the already-normal `/tmp/abs.log` returned
unchanged, the relative example, and the absence cases. -/
theorem c7_resolve_paths_w :
    resolve_log_path (some "/a//b") (some "/home/x") "/cwd" = some (pyPathStr "/a//b") ∧
    resolve_log_path (some "/tmp/abs.log") (some "/home/x") "/cwd" = some "/tmp/abs.log" ∧
    resolve_log_path (some "out.log") (some "/home/x") "/cwd" = some "/home/x/out.log" ∧
    resolve_log_path none (some "/home/x") "/cwd" = none ∧
    (format_process_logs sampleRecord "/cwd").stdoutPath = none ∧
    (format_process_logs sampleRecord "/cwd").stderrPath = none :=
  ⟨c7_resolve_paths.1 "/a//b" (some "/home/x") "/cwd" rfl,
    c7_resolve_paths.2.1 "/tmp/abs.log" (some "/home/x") "/cwd" rfl (by decide),
    c7_resolve_paths.2.2.2.1 "/cwd",
    c7_resolve_paths.2.2.2.2.2.1 (some "/home/x") "/cwd",
    c7_resolve_paths.2.2.2.2.2.2.1 sampleRecord "/cwd" rfl,
    c7_resolve_paths.2.2.2.2.2.2.2 sampleRecord "/cwd" rfl⟩

/-- C8: store initialization is idempotent — running `_init_database` a
second time changes nothing (the table exists and every column-existence
check passes), so the records and hence the output of `list()` are the same
before and after the second initialization. -/
theorem c8_init_idempotent (db : DbState) :
    init_database (init_database db) = init_database db ∧
    list_processes (init_database (init_database db)).rows none none none =
      list_processes (init_database db).rows none none none := by
  have h : init_database (init_database db) = init_database db := by
    rcases db with ⟨te, so, se, hs, rows⟩
    cases te <;> cases so <;> cases se <;> cases hs <;>
      simp [init_database, createTableStep, stdoutColStep, stderrColStep, streamsColStep]
  exact ⟨h, by rw [h]⟩

lemma update_transform_frame (status : String) (ec : Option Int) (now : Int)
    (r : ProcessRecord) :
    (update_transform status ec now r).command = r.command ∧
    (update_transform status ec now r).log_file = r.log_file ∧
    (update_transform status ec now r).stdout_log = r.stdout_log ∧
    (update_transform status ec now r).stderr_log = r.stderr_log ∧
    (update_transform status ec now r).working_dir = r.working_dir ∧
    (update_transform status ec now r).started_at = r.started_at := by
  unfold update_transform
  split <;> exact ⟨rfl, rfl, rfl, rfl, rfl, rfl⟩

/-- C9: `update_status` never modifies `command`, `log_file`, `stdout_log`,
`stderr_log`, `working_dir` or `started_at` of any record, and leaves every
record whose `process_id` differs from the updated id entirely unchanged
(stated positionally: the store keeps its length and each position keeps
its frame fields). -/
theorem c9_update_frame (s : List ProcessRecord) (pid status : String) (ec : Option Int)
    (now : Int) (i : Nat) (h : i < s.length) :
    ∃ h2 : i < (update_process_status s pid status ec now).length,
      ((update_process_status s pid status ec now).get ⟨i, h2⟩).command =
        (s.get ⟨i, h⟩).command ∧
      ((update_process_status s pid status ec now).get ⟨i, h2⟩).log_file =
        (s.get ⟨i, h⟩).log_file ∧
      ((update_process_status s pid status ec now).get ⟨i, h2⟩).stdout_log =
        (s.get ⟨i, h⟩).stdout_log ∧
      ((update_process_status s pid status ec now).get ⟨i, h2⟩).stderr_log =
        (s.get ⟨i, h⟩).stderr_log ∧
      ((update_process_status s pid status ec now).get ⟨i, h2⟩).working_dir =
        (s.get ⟨i, h⟩).working_dir ∧
      ((update_process_status s pid status ec now).get ⟨i, h2⟩).started_at =
        (s.get ⟨i, h⟩).started_at ∧
      ((s.get ⟨i, h⟩).process_id ≠ pid →
        (update_process_status s pid status ec now).get ⟨i, h2⟩ = s.get ⟨i, h⟩) := by
  have hlen : (update_process_status s pid status ec now).length = s.length := by
    rw [update_eq_map, List.length_map]
  refine ⟨by omega, ?_⟩
  have hget : (update_process_status s pid status ec now).get ⟨i, by omega⟩ =
      if (s.get ⟨i, h⟩).process_id == pid then update_transform status ec now (s.get ⟨i, h⟩)
      else s.get ⟨i, h⟩ := by
    have := List.get_of_eq (update_eq_map s pid status ec now) ⟨i, by omega⟩
    rw [this, List.get_map]
  rw [hget]
  by_cases hid : ((s.get ⟨i, h⟩).process_id == pid) = true
  · simp only [hid, if_true]
    obtain ⟨h1, h2, h3, h4, h5, h6⟩ := update_transform_frame status ec now (s.get ⟨i, h⟩)
    exact ⟨h1, h2, h3, h4, h5, h6, fun hne => absurd (beq_iff_eq.mp hid) hne⟩
  · have hne : (s.get ⟨i, h⟩).process_id ≠ pid := by
      simp only [Bool.not_eq_true] at hid
      exact beq_eq_false_iff_ne.mp hid
    simp only [List.get_eq_getElem] at hne
    simp [hne]

/-- C9 witness: the frame statement evaluated at position 0 of a one-record
store. -/
theorem c9_update_frame_w :
    ∃ h2 : 0 < (update_process_status [sampleRecord] "p" "completed" (some 0) 6).length,
      ((update_process_status [sampleRecord] "p" "completed" (some 0) 6).get
        ⟨0, h2⟩).command = ([sampleRecord].get ⟨0, by decide⟩).command ∧
      ((update_process_status [sampleRecord] "p" "completed" (some 0) 6).get
        ⟨0, h2⟩).log_file = ([sampleRecord].get ⟨0, by decide⟩).log_file ∧
      ((update_process_status [sampleRecord] "p" "completed" (some 0) 6).get
        ⟨0, h2⟩).stdout_log = ([sampleRecord].get ⟨0, by decide⟩).stdout_log ∧
      ((update_process_status [sampleRecord] "p" "completed" (some 0) 6).get
        ⟨0, h2⟩).stderr_log = ([sampleRecord].get ⟨0, by decide⟩).stderr_log ∧
      ((update_process_status [sampleRecord] "p" "completed" (some 0) 6).get
        ⟨0, h2⟩).working_dir = ([sampleRecord].get ⟨0, by decide⟩).working_dir ∧
      ((update_process_status [sampleRecord] "p" "completed" (some 0) 6).get
        ⟨0, h2⟩).started_at = ([sampleRecord].get ⟨0, by decide⟩).started_at ∧
      (([sampleRecord].get ⟨0, by decide⟩).process_id ≠ "p" →
        (update_process_status [sampleRecord] "p" "completed" (some 0) 6).get ⟨0, h2⟩ =
          [sampleRecord].get ⟨0, by decide⟩) :=
  c9_update_frame [sampleRecord] "p" "completed" (some 0) 6 0 (by decide)

/-- C10: `list_processes` accepts the undocumented `with_separate_streams`
filter; with no limit, a record is in the output exactly when it is in the
store, matches the (truthy) status filter if one is supplied, and has
`has_separate_streams` equal to the requested boolean — the two filters
conjoin. -/
theorem c10_streams_filter (s : List ProcessRecord) (stat : Option String) (b : Bool)
    (r : ProcessRecord) :
    r ∈ list_processes s stat none (some b) ↔
      r ∈ s ∧ (match stat with
        | none => True
        | some t => t = "" ∨ r.status = t) ∧ r.has_separate_streams = b := by
  cases stat with
  | none =>
      simp [list_processes, List.mem_mergeSort, List.mem_filter]
  | some t =>
      by_cases ht : (t == "") = true
      · have : t = "" := beq_iff_eq.mp ht
        subst this
        simp [list_processes, List.mem_mergeSort, List.mem_filter]
      · simp only [Bool.not_eq_true] at ht
        have htne : t ≠ "" := beq_eq_false_iff_ne.mp ht
        simp [list_processes, ht, List.mem_mergeSort, List.mem_filter, htne,
          and_assoc]
        tauto

end TrackIt
